import Mathlib

/-!
Verification of the browser-compiler orchestrator and the CSS-modules
plugin of the remix-fork repository, as a shallow embedding in Lean 4.

The orchestrator (createBrowserCompiler / compile / dispose, getExternals,
writeAssetsManifest) is embedded as pure state-passing functions producing
an explicit event trace; the bundler engine (esbuild), the dependency
lister, the manifest builder and the postcss pipeline are external
collaborators whose responses enter as explicit inputs.
-/

namespace Remix

/-- JS `String.prototype.startsWith`, as a character-list prefix test. -/
def strStartsWith (s pre : String) : Bool :=
  List.isPrefixOf pre.toList s.toList

/-- JS `String.prototype.endsWith`, as a character-list suffix test. -/
def strEndsWith (s suf : String) : Bool :=
  List.isSuffixOf suf.toList s.toList

/-- One emitted in-memory output file of the bundler engine
(esbuild `OutputFile`): a path and its contents. -/
structure OutputFile where
  path : String
  contents : String
deriving Repr, DecidableEq

/-- An incremental build result (esbuild `BuildIncremental`): the identity
of the engine-owned rebuildable handle, the dependency-graph metafile, and
the in-memory output files (populated for `write: false` builds). -/
structure BuildIncremental where
  handle : Nat
  metafile : String
  outputFiles : List OutputFile
deriving Repr, DecidableEq

/-- The slice of `RemixConfig` the orchestrator reads.  `dependencies` is
`Object.keys(getAppDependencies(remixConfig))`: the dependency lister is an
external collaborator, so its result is a field here. -/
structure RemixConfig where
  assetsBuildDirectory : String
  publicPath : String
  dependencies : List String
deriving Repr, DecidableEq

/-- `nodeBuiltins.filter((mod) => dependencies.includes(mod))` from
`getExternals`. -/
def fakeBuiltins (nodeBuiltins dependencies : List String) : List String :=
  nodeBuiltins.filter (fun m => dependencies.contains m)

/-- The message of the `Error` thrown by `getExternals` when some
dependency shadows a node builtin. -/
def externalsErrorMessage (fake : List String) : String :=
  "It appears you're using a module that is built in to node, but you installed it as a dependency which could cause problems. Please remove " ++
    String.intercalate ", " fake ++ " before continuing."

/-- `getExternals(remixConfig)`: throws (modelled as `Except.error`) when a
dependency name equals a node builtin, else returns the builtins not
shadowed by a dependency. -/
def getExternals (nodeBuiltins : List String) (config : RemixConfig) :
    Except String (List String) :=
  let dependencies := config.dependencies
  let fake := fakeBuiltins nodeBuiltins dependencies
  if fake.length > 0 then
    Except.error (externalsErrorMessage fake)
  else
    Except.ok (nodeBuiltins.filter (fun m => !dependencies.contains m))

/-- The assets manifest.  `version`, `url` and `cssBundlePath` are the
fields the orchestrator reads or writes; the builder-contributed
entry/route fields are opaque to it and kept as one abstract field. -/
structure AssetsManifest where
  version : String
  url : Option String
  cssBundlePath : Option String
  rest : String
deriving Repr, DecidableEq

/-- JS `String.prototype.toUpperCase` restricted to the characters
appearing in version tokens. -/
def toUpperCase (s : String) : String :=
  String.mk (s.toList.map Char.toUpper)

/-- A JSON string literal; escaping is not modelled (version tokens, paths
and URLs carry no characters needing it). -/
def jsonStr (s : String) : String := "\"" ++ s ++ "\""

/-- `JSON.stringify` on the assets manifest.  Only the fields the
orchestrator touches are spelled out; the builder-contributed fields are
spliced verbatim from `rest`.  `undefined`-valued fields are dropped, as
`JSON.stringify` does. -/
def manifestToJson (m : AssetsManifest) : String :=
  "\x7b\"version\":" ++ jsonStr m.version ++
    (match m.url with
      | some u => ",\"url\":" ++ jsonStr u
      | none => "") ++
    (match m.cssBundlePath with
      | some p => ",\"cssBundlePath\":" ++ jsonStr p
      | none => "") ++
    "," ++ m.rest ++ "\x7d"

/-- `path.join(a, b)` for the POSIX paths used here; `.` and `..`
normalization is not modelled (no caller passes segments needing it). -/
def pathJoin (a b : String) : String :=
  if a = "" then b
  else if strEndsWith a "/" then a ++ b
  else a ++ "/" ++ b

/-- The manifest file name `manifest-<VERSION>.js` with the version token
upper-cased, from `writeAssetsManifest`. -/
def manifestFileName (m : AssetsManifest) : String :=
  "manifest-" ++ toUpperCase m.version ++ ".js"

/-- `writeAssetsManifest(config, assetsManifest)`: computes the filename,
sets the manifest's `url` field (JS mutates the object in place), and
writes the global-assignment file.  Returns the mutated manifest together
with the written path and contents. -/
def writeAssetsManifest (config : RemixConfig) (m : AssetsManifest) :
    AssetsManifest × String × String :=
  let filename := manifestFileName m
  let m2 := { m with url := some (config.publicPath ++ filename) }
  (m2, pathJoin config.assetsBuildDirectory filename,
    "window.__remixManifest=" ++ manifestToJson m2 ++ ";")

/-- `path.join(remixConfig.assetsBuildDirectory, "css-bundle")`, the
prefix under which the stylesheet build's outputs are post-processed. -/
def cssBundlePathStart (config : RemixConfig) : String :=
  pathJoin config.assetsBuildDirectory "css-bundle"

/-- The two build targets of the orchestrator. -/
inductive Target where
  | app
  | css
deriving Repr, DecidableEq

/-- Observable actions of one `compile` call, in order. -/
inductive Event where
  /-- `esbuild.build` invoked for a target with the `metafile`,
  `incremental` and (negated `write: false`) flags. -/
  | fullBuild (t : Target) (metafile incremental writeToDisk : Bool)
  /-- `rebuild()` invoked on the stored incremental handle of a target. -/
  | rebuildInvoked (t : Target) (handle : Nat)
  /-- `fs.writeFile(outputPath, outputFile.contents)` during stylesheet
  output post-processing. -/
  | cssFileWrite (f : OutputFile)
  /-- `manifestChannel.write(manifest)`.  The recorded value is the
  manifest object as finally observable by a channel reader: JS passes the
  object by reference and `writeAssetsManifest` then sets its `url` field
  in place. -/
  | channelWrite (m : AssetsManifest)
  /-- `writeFileSafe` of the manifest file inside `writeAssetsManifest`. -/
  | manifestDiskWrite (path contents : String)
deriving Repr, DecidableEq

/-- The orchestrator's mutable state: the `appCompiler` and `cssCompiler`
variables closed over by `compile` and `dispose`.  Each is one optional
incremental handle. -/
structure CompilerState where
  appCompiler : Option BuildIncremental
  cssCompiler : Option BuildIncremental
deriving Repr, DecidableEq

/-- The state before any compile: both handle variables are undefined. -/
def CompilerState.initial : CompilerState := ⟨none, none⟩

/-- The external responses one `compile` call consumes: the ambient node
builtin list, the engine's result for this call's app and css operations
(full build or rebuild alike), and the external manifest builder
`createAssetsManifest`, fed the app metafile and the resolved css bundle
path. -/
structure CompileWorld where
  nodeBuiltins : List String
  appResult : Except String BuildIncremental
  cssResult : Except String BuildIncremental
  createAssetsManifest : String → Option String → AssetsManifest

/-- Accumulator of the stylesheet output post-processing: the files
persisted so far (in array order) and the `cssBundlePath` variable. -/
structure CssPostState where
  writes : List OutputFile
  cssBundlePath : Option String
deriving Repr, DecidableEq

/-- The body of `outputFiles.map((outputFile) => ...)` from `compile`,
together with its mutation of `cssBundlePath`, as one accumulator step. -/
def processCssOutputFile (pre : String) (acc : CssPostState)
    (f : OutputFile) : CssPostState :=
  if strStartsWith f.path pre then
    if strEndsWith f.path ".css" then
      { writes := acc.writes ++ [f], cssBundlePath := some f.path }
    else if strEndsWith f.path ".css.map" then
      { acc with writes := acc.writes ++ [f] }
    else acc
  else acc

/-- The stylesheet output post-processing of `compile`: fold the step over
the emitted output files in array order. -/
def processCssOutputFiles (pre : String) (outputFiles : List OutputFile) :
    CssPostState :=
  outputFiles.foldl (processCssOutputFile pre) ⟨[], none⟩

/-- How `compile` starts one target's operation: either
`createEsbuildConfig` threw synchronously (a `getExternals` error) before
`esbuild.build` was called, or an operation was issued and the engine's
response is awaited. -/
inductive OpSelection where
  | threwBeforeBuild (msg : String)
  | issued (ev : Event) (result : Except String BuildIncremental)

/-- Selection of the app operation: a first call evaluates
`createEsbuildConfig` (hence `getExternals`) and issues a full build with
`metafile: true, incremental: true`; with a stored handle it issues
`appCompiler.rebuild()` without re-evaluating the config. -/
def selectAppOp (config : RemixConfig) (st : CompilerState)
    (w : CompileWorld) : OpSelection :=
  match st.appCompiler with
  | none =>
    match getExternals w.nodeBuiltins config with
    | Except.error msg => OpSelection.threwBeforeBuild msg
    | Except.ok _ =>
      OpSelection.issued (Event.fullBuild Target.app true true true) w.appResult
  | some h => OpSelection.issued (Event.rebuildInvoked Target.app h.handle) w.appResult

/-- Selection of the css operation: a first call issues a full build with
`metafile: true, write: false, incremental: true`; with a stored handle it
issues `cssCompiler.rebuild()`. -/
def selectCssOp (config : RemixConfig) (st : CompilerState)
    (w : CompileWorld) : OpSelection :=
  match st.cssCompiler with
  | none =>
    match getExternals w.nodeBuiltins config with
    | Except.error msg => OpSelection.threwBeforeBuild msg
    | Except.ok _ =>
      OpSelection.issued (Event.fullBuild Target.css true true false) w.cssResult
  | some h => OpSelection.issued (Event.rebuildInvoked Target.css h.handle) w.cssResult

/-- Result of one `compile` call: its event trace and either the error it
propagated or the new orchestrator state (both handle variables replaced
with the newly produced handles). -/
structure CompileOutcome where
  trace : List Event
  result : Except String CompilerState

/-- `compile(manifestChannel)`.  Mirrors the source: select both
operations (a synchronous config throw during app selection prevents the
css operation from even being created), run the css build's `.then`
post-processing whenever the css build itself succeeded — also when the
app build failed —, fan in with `Promise.all` semantics, and on joint
success replace the handles, build the manifest, write the channel and
persist the manifest file. -/
def compile (config : RemixConfig) (st : CompilerState) (w : CompileWorld) :
    CompileOutcome :=
  match selectAppOp config st w with
  | OpSelection.threwBeforeBuild msg => ⟨[], Except.error msg⟩
  | OpSelection.issued appEv appRes =>
    match selectCssOp config st w with
    | OpSelection.threwBeforeBuild msg => ⟨[appEv], Except.error msg⟩
    | OpSelection.issued cssEv cssRes =>
      let post :=
        match cssRes with
        | Except.ok c => processCssOutputFiles (cssBundlePathStart config) c.outputFiles
        | Except.error _ => ⟨[], none⟩
      let cssWriteEvents := post.writes.map Event.cssFileWrite
      match appRes, cssRes with
      | Except.error e, _ => ⟨[appEv, cssEv] ++ cssWriteEvents, Except.error e⟩
      | Except.ok _, Except.error e => ⟨[appEv, cssEv] ++ cssWriteEvents, Except.error e⟩
      | Except.ok appC, Except.ok cssC =>
        let manifest := w.createAssetsManifest appC.metafile post.cssBundlePath
        let (m2, mpath, mcontents) := writeAssetsManifest config manifest
        ⟨[appEv, cssEv] ++ cssWriteEvents ++
            [Event.channelWrite m2, Event.manifestDiskWrite mpath mcontents],
          Except.ok ⟨some appC, some cssC⟩⟩

/-- `dispose: () => appCompiler?.rebuild.dispose()` — the identities of
the incremental handles actually released.  Optional chaining makes it a
no-op when no app build ever completed; the `cssCompiler` handle is not
touched by the source. -/
def dispose (st : CompilerState) : List Nat :=
  match st.appCompiler with
  | none => []
  | some h => [h.handle]

/-! The CSS-modules plugin (cssModulesPlugin.ts). -/

/-- `const pluginName = "css-modules-plugin"`. -/
def pluginName : String := "css-modules-plugin"

/-- The dedicated internal namespace of the plugin's virtual compiled-css
modules. -/
def pluginNs : String := pluginName ++ "-ns"

/-- The query suffix appended to a scoped-style file's basename to address
its compiled-css virtual module. -/
def compiledCssQueryString : String := "?css-modules-plugin-compiled-css"

/-- The pass-through record carried from the primary load hook to the
secondary hook pair via esbuild's `pluginData`. -/
structure PluginData where
  resolveDir : String
  compiledCss : String
deriving Repr, DecidableEq

/-- `path.dirname` for the POSIX file paths used here: the part before
the last slash (`"."` without a slash, `"/"` for a root-level file). -/
def dirname (p : String) : String :=
  let cs := p.toList
  if cs.contains '/' then
    let pre := ((cs.reverse.dropWhile (fun c => c ≠ '/')).drop 1).reverse
    if pre.isEmpty then "/" else String.mk pre
  else "."

/-- `path.basename`: the part after the last slash. -/
def basename (p : String) : String :=
  String.mk ((p.toList.reverse.takeWhile (fun c => c ≠ '/')).reverse)

/-- The `generateScopedName` option handed to postcss-modules: production
mode selects the bare 5-character-hash template, any other mode the
debuggable `name/local/hash` template. -/
def generateScopedName (mode : String) : String :=
  if mode = "production" then "[hash:base64:5]"
  else "[name]__[local]__[hash:base64:5]"

/-- Modelled from the spec: the interpretation of the two postcss-modules
naming templates used above lives in the external postcss-modules library,
not in this repository.  Per the spec, the production template rewrites a
local name to the 5-character content-derived hash alone, and the other
template to `originalName`, `localName` and the hash joined by double
underscores. -/
def applyScopedNameTemplate (template originalName localName hash5 : String) :
    String :=
  if template = "[hash:base64:5]" then hash5
  else originalName ++ "__" ++ localName ++ "__" ++ hash5

/-- The generated global name for one authored local name: the selected
template applied to the name parts and the content-derived hash. -/
def scopedName (mode originalName localName hash5 : String) : String :=
  applyScopedNameTemplate (generateScopedName mode) originalName localName hash5

/-- Result of the primary load hook (a JS binding module). -/
structure OnLoadResult where
  contents : String
  loader : String
  pluginData : PluginData
deriving Repr, DecidableEq

/-- The `build.onLoad({ filter: cssModulesFilter })` callback.  The postcss
pipeline is an external collaborator: its compiled css text, optional
external source map and exports JSON text, and the base64 encoder, enter as
arguments.  The hook appends the inline source-map comment when a map was
produced, emits the JS binding module, and stores the pass-through record
holding the original file's directory and the compiled css. -/
def cssModulesOnLoad (absolutePath postcssCss : String) (map : Option String)
    (base64 : String → String) (exportsJson : String) : OnLoadResult :=
  let resolveDir := dirname absolutePath
  let compiledCss :=
    match map with
    | some m =>
      postcssCss ++ "\n/" ++ "*# sourceMappingURL=data:application/json;base64," ++
        base64 m ++ " *" ++ "/"
    | none => postcssCss
  let contents := "import \"./" ++ basename absolutePath ++ compiledCssQueryString ++
    "\";" ++ "\n" ++ "export default " ++ exportsJson ++ ";"
  { contents := contents
    loader := "js"
    pluginData := { resolveDir := resolveDir, compiledCss := compiledCss } }

/-- Result of the secondary resolve hook.  The `namespace` field of the
source is called `ns` here (`namespace` is a Lean keyword). -/
structure OnResolveResult where
  ns : String
  path : String
  pluginData : PluginData
deriving Repr, DecidableEq

/-- `path.resolve(resolveDir, p)` restricted to the cases occurring here:
an absolute `p` wins, otherwise it is joined onto `resolveDir`; `.` and
`..` normalization is not modelled. -/
def pathResolve (resolveDir p : String) : String :=
  if strStartsWith p "/" then p else pathJoin resolveDir p

/-- `path.relative(cwd, p)` restricted to the cases occurring here: strips
a leading `cwd` segment, otherwise returns `p`; upward walking is not
modelled. -/
def pathRelative (cwd p : String) : String :=
  if strStartsWith p (cwd ++ "/") then
    String.mk (p.toList.drop (cwd ++ "/").toList.length)
  else p

/-- The `build.onResolve({ filter: compiledCssFilter })` callback: resolve
into the dedicated namespace with a path relative to the process working
directory, carrying the pass-through record forward unchanged. -/
def compiledCssOnResolve (cwd argsPath argsResolveDir : String)
    (pd : PluginData) : OnResolveResult :=
  { ns := pluginNs
    path := pathRelative cwd (pathResolve argsResolveDir argsPath)
    pluginData := pd }

/-- Result of the secondary load hook (a stylesheet-loader unit). -/
structure CssOnLoadResult where
  resolveDir : String
  contents : String
  loader : String
deriving Repr, DecidableEq

/-- The `build.onLoad({ filter: compiledCssFilter, namespace })` callback:
return the stored compiled css as loader `css` with the stored resolve
directory. -/
def compiledCssOnLoad (pd : PluginData) : CssOnLoadResult :=
  { resolveDir := pd.resolveDir
    contents := pd.compiledCss
    loader := "css" }

/-! Derived predicates and auxiliary definitions used by the theorems. -/

/-- An output file the post-processing records as the css bundle: under
the css-bundle output path and ending in `.css`. -/
def isCssBundleFile (pre : String) (f : OutputFile) : Bool :=
  strStartsWith f.path pre && strEndsWith f.path ".css"

/-- An output file the post-processing persists to disk: under the
css-bundle output path and ending in `.css` or `.css.map`. -/
def isCssWriteFile (pre : String) (f : OutputFile) : Bool :=
  strStartsWith f.path pre &&
    (strEndsWith f.path ".css" || strEndsWith f.path ".css.map")

/-- The path of the last css-bundle file of the list, mirroring the
last-assignment-wins mutation of the `cssBundlePath` variable. -/
def lastCssBundlePath (pre : String) : List OutputFile → Option String
  | [] => none
  | f :: t =>
    match lastCssBundlePath pre t with
    | some p => some p
    | none => if isCssBundleFile pre f then some f.path else none

/-- The css post-processing state produced for a css build response: the
`.then` continuation runs it only on a fulfilled css build. -/
def cssPostOf (config : RemixConfig) (cres : Except String BuildIncremental) :
    CssPostState :=
  match cres with
  | Except.ok c => processCssOutputFiles (cssBundlePathStart config) c.outputFiles
  | Except.error _ => ⟨[], none⟩

/-- Whether an event is a handoff-channel write. -/
def isChannelWriteEv : Event → Bool
  | Event.channelWrite _ => true
  | _ => false

/-! Concrete fixtures used by the witnesses. -/

/-- A configuration whose dependency set is disjoint from the builtins. -/
def cfgW : RemixConfig := ⟨"public/build", "/build/", ["react"]⟩

/-- A configuration with a dependency shadowing the builtin `fs`. -/
def cfgShadowW : RemixConfig := ⟨"public/build", "/build/", ["fs", "react"]⟩

/-- A concrete external manifest builder. -/
def mkManifestW : String → Option String → AssetsManifest :=
  fun mf p => ⟨"abc123def", none, p, "\"metafile\":" ++ jsonStr mf⟩

/-- A concrete app build result. -/
def appBuildW : BuildIncremental := ⟨1, "meta-app", []⟩

/-- The css bundle output file of the fixture build. -/
def cssOutFileW : OutputFile :=
  ⟨"public/build/css-bundle-HASH.css", ".title\x7bcolor:red\x7d"⟩

/-- The companion source-map output file. -/
def cssMapFileW : OutputFile :=
  ⟨"public/build/css-bundle-HASH.css.map", "mapdata"⟩

/-- An output file under the css-bundle path ending in neither `.css` nor
`.css.map`. -/
def cssJunkFileW : OutputFile := ⟨"public/build/css-bundle-HASH.txt", "junk"⟩

/-- An output file outside the css-bundle output path. -/
def otherFileW : OutputFile := ⟨"public/build/entry.client-HASH.js", "js"⟩

/-- A concrete css build result with all four kinds of output files. -/
def cssBuildW : BuildIncremental :=
  ⟨2, "meta-css", [cssOutFileW, cssMapFileW, cssJunkFileW, otherFileW]⟩

/-- A concrete css build result with no stylesheet output. -/
def cssBuildEmptyW : BuildIncremental := ⟨3, "meta-css", [otherFileW]⟩

/-- A world in which both builds succeed. -/
def worldOkW : CompileWorld :=
  ⟨["fs", "path"], Except.ok appBuildW, Except.ok cssBuildW, mkManifestW⟩

/-- A world in which the app build fails and the css build succeeds. -/
def worldAppFailW : CompileWorld :=
  ⟨["fs", "path"], Except.error "app syntax error", Except.ok cssBuildW, mkManifestW⟩

/-- A world in which both builds succeed but no stylesheet output exists. -/
def worldNoCssW : CompileWorld :=
  ⟨["fs", "path"], Except.ok appBuildW, Except.ok cssBuildEmptyW, mkManifestW⟩

/-- An orchestrator state holding a live handle for both targets. -/
def stBothW : CompilerState := ⟨some ⟨10, "m0", []⟩, some ⟨20, "m0", []⟩⟩

/-! Helper lemmas shared by the claim theorems. -/

theorem processCss_foldl_writes (pre : String) :
    ∀ (l : List OutputFile) (acc : CssPostState),
      (l.foldl (processCssOutputFile pre) acc).writes =
        acc.writes ++ l.filter (isCssWriteFile pre) := by
  intro l
  induction l with
  | nil => intro acc; simp
  | cons f t ih =>
    intro acc
    simp only [List.foldl_cons, List.filter_cons]
    by_cases h1 : strStartsWith f.path pre
    · by_cases h2 : strEndsWith f.path ".css"
      · simp [processCssOutputFile, isCssWriteFile, h1, h2, ih]
      · by_cases h3 : strEndsWith f.path ".css.map"
        · simp [processCssOutputFile, isCssWriteFile, h1, h2, h3, ih]
        · simp [processCssOutputFile, isCssWriteFile, h1, h2, h3, ih]
    · simp [processCssOutputFile, isCssWriteFile, h1, ih]

theorem processCss_writes_eq (pre : String) (l : List OutputFile) :
    (processCssOutputFiles pre l).writes = l.filter (isCssWriteFile pre) := by
  simp [processCssOutputFiles, processCss_foldl_writes]

theorem processCss_foldl_bundlePath (pre : String) :
    ∀ (l : List OutputFile) (acc : CssPostState),
      (l.foldl (processCssOutputFile pre) acc).cssBundlePath =
        match lastCssBundlePath pre l with
        | some p => some p
        | none => acc.cssBundlePath := by
  intro l
  induction l with
  | nil => intro acc; simp [lastCssBundlePath]
  | cons f t ih =>
    intro acc
    simp only [List.foldl_cons, lastCssBundlePath]
    by_cases h1 : strStartsWith f.path pre
    · by_cases h2 : strEndsWith f.path ".css"
      · rw [ih]
        cases h : lastCssBundlePath pre t <;>
          simp [processCssOutputFile, isCssBundleFile, h1, h2]
      · by_cases h3 : strEndsWith f.path ".css.map"
        · rw [ih]
          cases h : lastCssBundlePath pre t <;>
            simp [processCssOutputFile, isCssBundleFile, h1, h2, h3]
        · rw [ih]
          cases h : lastCssBundlePath pre t <;>
            simp [processCssOutputFile, isCssBundleFile, h1, h2, h3]
    · rw [ih]
      cases h : lastCssBundlePath pre t <;>
        simp [processCssOutputFile, isCssBundleFile, h1]

theorem processCss_bundlePath_eq (pre : String) (l : List OutputFile) :
    (processCssOutputFiles pre l).cssBundlePath =
      match lastCssBundlePath pre l with
      | some p => some p
      | none => none := by
  simp [processCssOutputFiles, processCss_foldl_bundlePath]

theorem lastCss_none_iff (pre : String) (l : List OutputFile) :
    lastCssBundlePath pre l = none ↔ ∀ f ∈ l, isCssBundleFile pre f = false := by
  induction l with
  | nil => simp [lastCssBundlePath]
  | cons f t ih =>
    simp only [lastCssBundlePath]
    cases h : lastCssBundlePath pre t with
    | none =>
      by_cases hf : isCssBundleFile pre f
      · simp [hf, ih.mp h]
      · simp only [hf, if_neg]
        simp only [Bool.not_eq_true] at hf
        simp [hf, ih.mp h, h, List.mem_cons]
        intro g hg
        exact (ih.mp h) g hg
    | some p =>
      constructor
      · intro hcontra; cases hcontra
      · intro hall
        have := (ih.mpr (fun g hg => hall g (List.mem_cons_of_mem f hg)))
        rw [this] at h
        cases h

theorem lastCss_some_mem (pre : String) (l : List OutputFile) (p : String) :
    lastCssBundlePath pre l = some p →
      ∃ g ∈ l, isCssBundleFile pre g = true ∧ g.path = p := by
  induction l with
  | nil => intro h; cases h
  | cons f t ih =>
    intro h
    simp only [lastCssBundlePath] at h
    cases ht : lastCssBundlePath pre t with
    | some q =>
      rw [ht] at h
      obtain ⟨g, hg, hcss, hp⟩ := ih (ht.trans (by injection h with h; rw [h]))
      exact ⟨g, List.mem_cons_of_mem f hg, hcss, hp⟩
    | none =>
      rw [ht] at h
      by_cases hf : isCssBundleFile pre f
      · rw [if_pos hf] at h
        injection h with h
        exact ⟨f, List.mem_cons_self f t, hf, h⟩
      · rw [if_neg hf] at h
        cases h

theorem lastCss_of_unique (pre : String) (l : List OutputFile) (f : OutputFile) :
    (l.filter (isCssBundleFile pre)).length ≤ 1 → f ∈ l →
      isCssBundleFile pre f = true → lastCssBundlePath pre l = some f.path := by
  induction l with
  | nil => intro _ hmem; cases hmem
  | cons g t ih =>
    intro hlen hmem hf
    simp only [List.filter_cons] at hlen
    simp only [lastCssBundlePath]
    rcases List.mem_cons.mp hmem with hfg | hft
    · subst hfg
      rw [if_pos hf] at hlen
      simp only [List.length_cons] at hlen
      have ht : lastCssBundlePath pre t = none := by
        rw [lastCss_none_iff]
        intro x hx
        by_contra hxc
        simp only [Bool.not_eq_false] at hxc
        have : x ∈ t.filter (isCssBundleFile pre) := List.mem_filter.mpr ⟨hx, hxc⟩
        have : 1 ≤ (t.filter (isCssBundleFile pre)).length :=
          List.length_pos.mpr (List.ne_nil_of_mem this)
        omega
      rw [ht, if_pos hf]
    · have htlen : (t.filter (isCssBundleFile pre)).length ≤ 1 := by
        by_cases hg : isCssBundleFile pre g
        · rw [if_pos hg] at hlen
          simp only [List.length_cons] at hlen
          omega
        · rw [if_neg hg] at hlen
          exact hlen
      have ht := ih htlen hft hf
      rw [ht]

theorem selectAppOp_issued_shape (config : RemixConfig) (st : CompilerState)
    (w : CompileWorld) (ev : Event) (r : Except String BuildIncremental) :
    selectAppOp config st w = OpSelection.issued ev r →
      ((∃ m i wr, ev = Event.fullBuild Target.app m i wr) ∨
        ∃ h, ev = Event.rebuildInvoked Target.app h) ∧ r = w.appResult := by
  intro h
  unfold selectAppOp at h
  cases hst : st.appCompiler with
  | none =>
    rw [hst] at h
    cases hx : getExternals w.nodeBuiltins config with
    | error msg => rw [hx] at h; cases h
    | ok ext =>
      rw [hx] at h
      injection h with h1 h2
      exact ⟨Or.inl ⟨true, true, true, h1.symm⟩, h2.symm⟩
  | some hdl =>
    rw [hst] at h
    injection h with h1 h2
    exact ⟨Or.inr ⟨hdl.handle, h1.symm⟩, h2.symm⟩

theorem selectCssOp_issued_shape (config : RemixConfig) (st : CompilerState)
    (w : CompileWorld) (ev : Event) (r : Except String BuildIncremental) :
    selectCssOp config st w = OpSelection.issued ev r →
      ((∃ m i wr, ev = Event.fullBuild Target.css m i wr) ∨
        ∃ h, ev = Event.rebuildInvoked Target.css h) ∧ r = w.cssResult := by
  intro h
  unfold selectCssOp at h
  cases hst : st.cssCompiler with
  | none =>
    rw [hst] at h
    cases hx : getExternals w.nodeBuiltins config with
    | error msg => rw [hx] at h; cases h
    | ok ext =>
      rw [hx] at h
      injection h with h1 h2
      exact ⟨Or.inl ⟨true, true, false, h1.symm⟩, h2.symm⟩
  | some hdl =>
    rw [hst] at h
    injection h with h1 h2
    exact ⟨Or.inr ⟨hdl.handle, h1.symm⟩, h2.symm⟩

theorem compile_eq_app_error (config : RemixConfig) (st : CompilerState)
    (w : CompileWorld) (aev cev : Event) (e : String)
    (cres : Except String BuildIncremental)
    (hA : selectAppOp config st w = OpSelection.issued aev (Except.error e))
    (hC : selectCssOp config st w = OpSelection.issued cev cres) :
    compile config st w =
      ⟨[aev, cev] ++ (cssPostOf config cres).writes.map Event.cssFileWrite,
        Except.error e⟩ := by
  cases cres with
  | error e2 => unfold compile; rw [hA, hC]; rfl
  | ok cssC => unfold compile; rw [hA, hC]; rfl

theorem compile_eq_css_error (config : RemixConfig) (st : CompilerState)
    (w : CompileWorld) (aev cev : Event) (appC : BuildIncremental) (e : String)
    (hA : selectAppOp config st w = OpSelection.issued aev (Except.ok appC))
    (hC : selectCssOp config st w = OpSelection.issued cev (Except.error e)) :
    compile config st w = ⟨[aev, cev], Except.error e⟩ := by
  unfold compile; rw [hA, hC]; rfl

theorem compile_eq_ok (config : RemixConfig) (st : CompilerState)
    (w : CompileWorld) (aev cev : Event) (appC cssC : BuildIncremental)
    (hA : selectAppOp config st w = OpSelection.issued aev (Except.ok appC))
    (hC : selectCssOp config st w = OpSelection.issued cev (Except.ok cssC)) :
    compile config st w =
      (let post := processCssOutputFiles (cssBundlePathStart config) cssC.outputFiles
      let manifest := w.createAssetsManifest appC.metafile post.cssBundlePath
      let wm := writeAssetsManifest config manifest
      ⟨[aev, cev] ++ post.writes.map Event.cssFileWrite ++
          [Event.channelWrite wm.1, Event.manifestDiskWrite wm.2.1 wm.2.2],
        Except.ok ⟨some appC, some cssC⟩⟩) := by
  unfold compile; rw [hA, hC]

theorem selectAppOp_none_error (config : RemixConfig) (st : CompilerState)
    (w : CompileWorld) (msg : String) (hst : st.appCompiler = none)
    (hx : getExternals w.nodeBuiltins config = Except.error msg) :
    selectAppOp config st w = OpSelection.threwBeforeBuild msg := by
  unfold selectAppOp; rw [hst, hx]

theorem compile_threw_app (config : RemixConfig) (st : CompilerState)
    (w : CompileWorld) (msg : String)
    (h : selectAppOp config st w = OpSelection.threwBeforeBuild msg) :
    compile config st w = ⟨[], Except.error msg⟩ := by
  unfold compile; rw [h]

theorem compile_trace_shape (config : RemixConfig) (st : CompilerState)
    (w : CompileWorld) (aev cev : Event)
    (ares cres : Except String BuildIncremental)
    (hA : selectAppOp config st w = OpSelection.issued aev ares)
    (hC : selectCssOp config st w = OpSelection.issued cev cres) :
    ∃ rest, (compile config st w).trace = aev :: cev :: rest ∧
      ∀ ev ∈ rest, (∃ f, ev = Event.cssFileWrite f) ∨
        (∃ m, ev = Event.channelWrite m) ∨
        ∃ p c, ev = Event.manifestDiskWrite p c := by
  cases ares with
  | error e =>
    rw [compile_eq_app_error config st w aev cev e cres hA hC]
    refine ⟨(cssPostOf config cres).writes.map Event.cssFileWrite, rfl, ?_⟩
    intro ev hev
    rw [List.mem_map] at hev
    obtain ⟨g, _, hg⟩ := hev
    exact Or.inl ⟨g, hg.symm⟩
  | ok appC =>
    cases cres with
    | error e =>
      rw [compile_eq_css_error config st w aev cev appC e hA hC]
      exact ⟨[], rfl, by intro ev hev; cases hev⟩
    | ok cssC =>
      rw [compile_eq_ok config st w aev cev appC cssC hA hC]
      refine ⟨_, rfl, ?_⟩
      intro ev hev
      simp only [List.append_eq, List.nil_append] at hev
      rcases List.mem_append.mp hev with hmap | htail
      · rw [List.mem_map] at hmap
        obtain ⟨g, _, hg⟩ := hmap
        exact Or.inl ⟨g, hg.symm⟩
      · rcases List.mem_cons.mp htail with h1 | h2
        · exact Or.inr (Or.inl ⟨_, h1⟩)
        · rcases List.mem_cons.mp h2 with h3 | h4
          · exact Or.inr (Or.inr ⟨_, _, h3⟩)
          · cases h4

theorem issued_ev_forms (ev : Event) (t : Target)
    (h : (∃ m i wr, ev = Event.fullBuild t m i wr) ∨
      ∃ hh, ev = Event.rebuildInvoked t hh) :
    (∀ m, ev ≠ Event.channelWrite m) ∧
    (∀ p c, ev ≠ Event.manifestDiskWrite p c) ∧
    (∀ f, ev ≠ Event.cssFileWrite f) ∧
    isChannelWriteEv ev = false := by
  rcases h with ⟨m, i, wr, rfl⟩ | ⟨hh, rfl⟩ <;>
    exact ⟨fun _ h2 => Event.noConfusion h2, fun _ _ h2 => Event.noConfusion h2,
      fun _ h2 => Event.noConfusion h2, rfl⟩

theorem filter_channel_map_css (l : List OutputFile) :
    (l.map Event.cssFileWrite).filter isChannelWriteEv = [] := by
  induction l with
  | nil => rfl
  | cons f t ih => simp [isChannelWriteEv, ih]

theorem isChannelWriteEv_channel (m : AssetsManifest) :
    isChannelWriteEv (Event.channelWrite m) = true := rfl

theorem isChannelWriteEv_mdw (p c : String) :
    isChannelWriteEv (Event.manifestDiskWrite p c) = false := rfl

theorem compile_error_trace (config : RemixConfig) (st : CompilerState)
    (w : CompileWorld) (aev cev : Event)
    (ares cres : Except String BuildIncremental)
    (hA : selectAppOp config st w = OpSelection.issued aev ares)
    (hC : selectCssOp config st w = OpSelection.issued cev cres)
    (herr : ∃ e, (compile config st w).result = Except.error e) :
    (compile config st w).trace =
      [aev, cev] ++ (cssPostOf config cres).writes.map Event.cssFileWrite := by
  cases ares with
  | error e =>
    rw [compile_eq_app_error config st w aev cev e cres hA hC]
  | ok appC =>
    cases cres with
    | error e =>
      rw [compile_eq_css_error config st w aev cev appC e hA hC]
      simp [cssPostOf]
    | ok cssC =>
      obtain ⟨e, he⟩ := herr
      rw [compile_eq_ok config st w aev cev appC cssC hA hC] at he
      cases he

/-! The claim theorems. -/

/-- C1: if any application dependency name equals a node builtin module
name, `getExternals` fails with an error listing exactly the overlapping
names, and a first `compile` call fails before any build operation is
invoked (its trace is empty); if the dependency set is disjoint from the
builtins, `getExternals` returns the full builtin list unmodified. -/
theorem getExternals_shadowing_spec (builtins : List String)
    (config : RemixConfig) :
    ((∃ m ∈ builtins, m ∈ config.dependencies) →
      getExternals builtins config =
        Except.error
          (externalsErrorMessage (fakeBuiltins builtins config.dependencies)) ∧
      (∀ m, m ∈ fakeBuiltins builtins config.dependencies ↔
        m ∈ builtins ∧ m ∈ config.dependencies) ∧
      (∀ (st : CompilerState) (w : CompileWorld), st.appCompiler = none →
        w.nodeBuiltins = builtins →
          (compile config st w).trace = [] ∧
          (compile config st w).result =
            Except.error
              (externalsErrorMessage
                (fakeBuiltins builtins config.dependencies)))) ∧
    ((∀ m ∈ builtins, m ∉ config.dependencies) →
      getExternals builtins config = Except.ok builtins) := by
  have hiff : ∀ m, m ∈ fakeBuiltins builtins config.dependencies ↔
      m ∈ builtins ∧ m ∈ config.dependencies := by
    intro m
    simp [fakeBuiltins, List.mem_filter, List.contains, List.elem_iff]
  constructor
  · intro hex
    obtain ⟨m, hmb, hmd⟩ := hex
    have hmem : m ∈ fakeBuiltins builtins config.dependencies :=
      (hiff m).mpr ⟨hmb, hmd⟩
    have hpos : 0 < (fakeBuiltins builtins config.dependencies).length :=
      List.length_pos.mpr (List.ne_nil_of_mem hmem)
    have herr : getExternals builtins config =
        Except.error
          (externalsErrorMessage (fakeBuiltins builtins config.dependencies)) := by
      unfold getExternals
      rw [if_pos hpos]
    refine ⟨herr, hiff, ?_⟩
    intro st w hst hnw
    have hx : getExternals w.nodeBuiltins config =
        Except.error
          (externalsErrorMessage (fakeBuiltins builtins config.dependencies)) := by
      rw [hnw]; exact herr
    rw [compile_threw_app config st w _ (selectAppOp_none_error config st w _ hst hx)]
    exact ⟨rfl, rfl⟩
  · intro hdisj
    have hfake : fakeBuiltins builtins config.dependencies = [] := by
      rw [fakeBuiltins, List.filter_eq_nil_iff]
      intro a ha
      simpa [List.contains, List.elem_iff] using hdisj a ha
    have hkeep : builtins.filter (fun m => !config.dependencies.contains m) =
        builtins := by
      rw [List.filter_eq_self]
      intro a ha
      simpa [List.contains, List.elem_iff] using hdisj a ha
    have hnot : ¬ (fakeBuiltins builtins config.dependencies).length > 0 := by
      rw [hfake]
      simp
    unfold getExternals
    rw [if_neg hnot, hkeep]

/-- C1 witness: with builtins `fs, path`, a dependency set containing `fs`
makes `getExternals` fail naming exactly `fs` and makes a first compile
produce an empty trace, while the disjoint set `react` gets the full
builtin list back. -/
theorem getExternals_shadowing_spec_witness :
    getExternals ["fs", "path"] cfgShadowW =
      Except.error (externalsErrorMessage ["fs"]) ∧
    (compile cfgShadowW CompilerState.initial worldOkW).trace = [] ∧
    getExternals ["fs", "path"] cfgW = Except.ok ["fs", "path"] := by
  have h := getExternals_shadowing_spec ["fs", "path"] cfgShadowW
  have hex : ∃ m ∈ ["fs", "path"], m ∈ cfgShadowW.dependencies :=
    ⟨"fs", by decide, by decide⟩
  obtain ⟨h1, _, h3⟩ := h.1 hex
  have hfake : fakeBuiltins ["fs", "path"] cfgShadowW.dependencies = ["fs"] := rfl
  refine ⟨by rw [h1, hfake], ?_, ?_⟩
  · exact (h3 CompilerState.initial worldOkW rfl rfl).1
  · exact (getExternals_shadowing_spec ["fs", "path"] cfgW).2 (by decide)

/-- C6: production mode rewrites every local name to the 5-character
content-derived hash alone (independent of the authored names), any other
mode to `originalName__localName__hash`, and the two formats disagree on
identical content. -/
theorem generateScopedName_mode_formats (mode originalName localName content : String)
    (hash : String → String) (hlen : ∀ c, (hash c).length = 5)
    (hmode : mode ≠ "production") :
    scopedName "production" originalName localName (hash content) = hash content ∧
    (scopedName "production" originalName localName (hash content)).length = 5 ∧
    (∀ n l, scopedName "production" n l (hash content) =
      scopedName "production" originalName localName (hash content)) ∧
    scopedName mode originalName localName (hash content) =
      originalName ++ "__" ++ localName ++ "__" ++ hash content ∧
    scopedName "production" originalName localName (hash content) ≠
      scopedName mode originalName localName (hash content) := by
  have hprod : ∀ n l, scopedName "production" n l (hash content) = hash content := by
    intro n l
    simp [scopedName, generateScopedName, applyScopedNameTemplate]
  have hdev : scopedName mode originalName localName (hash content) =
      originalName ++ "__" ++ localName ++ "__" ++ hash content := by
    rw [scopedName, generateScopedName, if_neg hmode, applyScopedNameTemplate,
      if_neg (by decide)]
  refine ⟨hprod originalName localName, ?_, fun n l => (hprod n l).trans
    (hprod originalName localName).symm, hdev, ?_⟩
  · rw [hprod]; exact hlen content
  · intro heq
    rw [hprod, hdev] at heq
    have hlen2 := congrArg String.length heq
    have h2 : ("__" : String).length = 2 := rfl
    simp only [String.length_append, h2, hlen content] at hlen2
    omega

/-- C6 witness: a concrete 5-character hash, authored name `button` and
local name `title` produce the two distinct formats. -/
theorem generateScopedName_mode_formats_witness :
    scopedName "production" "button" "title" "ab0cd" = "ab0cd" ∧
    scopedName "development" "button" "title" "ab0cd" =
      "button" ++ "__" ++ "title" ++ "__" ++ "ab0cd" ∧
    scopedName "production" "button" "title" "ab0cd" ≠
      scopedName "development" "button" "title" "ab0cd" := by
  have h := generateScopedName_mode_formats "development" "button" "title" "x"
    (fun _ => "ab0cd") (fun _ => rfl) (by decide)
  exact ⟨h.1, h.2.2.2.1, h.2.2.2.2⟩

/-- C7: the pass-through record created by the primary load hook holds the
directory of the original file and the compiled css text, is carried
unchanged through the secondary resolve hook into the dedicated namespace,
and the secondary load hook returns exactly the stored compiled css with
loader `css` and exactly the stored resolve directory. -/
theorem cssModules_passthrough (absolutePath postcssCss : String)
    (map : Option String) (base64 : String → String)
    (exportsJson cwd argsPath argsResolveDir : String) :
    (cssModulesOnLoad absolutePath postcssCss map base64
      exportsJson).pluginData.resolveDir = dirname absolutePath ∧
    (cssModulesOnLoad absolutePath postcssCss map base64
      exportsJson).pluginData.compiledCss =
      (match map with
        | some m => postcssCss ++ "\n/" ++
            "*# sourceMappingURL=data:application/json;base64," ++ base64 m ++
            " *" ++ "/"
        | none => postcssCss) ∧
    (cssModulesOnLoad absolutePath postcssCss map base64 exportsJson).loader =
      "js" ∧
    (compiledCssOnResolve cwd argsPath argsResolveDir
      (cssModulesOnLoad absolutePath postcssCss map base64
        exportsJson).pluginData).pluginData =
      (cssModulesOnLoad absolutePath postcssCss map base64
        exportsJson).pluginData ∧
    (compiledCssOnResolve cwd argsPath argsResolveDir
      (cssModulesOnLoad absolutePath postcssCss map base64
        exportsJson).pluginData).ns = pluginNs ∧
    (compiledCssOnLoad (compiledCssOnResolve cwd argsPath argsResolveDir
      (cssModulesOnLoad absolutePath postcssCss map base64
        exportsJson).pluginData).pluginData).contents =
      (cssModulesOnLoad absolutePath postcssCss map base64
        exportsJson).pluginData.compiledCss ∧
    (compiledCssOnLoad (compiledCssOnResolve cwd argsPath argsResolveDir
      (cssModulesOnLoad absolutePath postcssCss map base64
        exportsJson).pluginData).pluginData).loader = "css" ∧
    (compiledCssOnLoad (compiledCssOnResolve cwd argsPath argsResolveDir
      (cssModulesOnLoad absolutePath postcssCss map base64
        exportsJson).pluginData).pluginData).resolveDir =
      dirname absolutePath := by
  refine ⟨rfl, ?_, rfl, rfl, rfl, rfl, rfl, rfl⟩
  cases map <;> rfl

/-- C8: at a state holding a live handle for both targets, `dispose`
releases only the application build handle and leaks the stylesheet build
handle, contradicting the claim that both are released; it is a no-op
without failure when no build has ever completed. -/
theorem dispose_releases_only_app_handle :
    dispose stBothW = [10] ∧ (20 : Nat) ∉ dispose stBothW ∧
    dispose CompilerState.initial = [] := by
  refine ⟨rfl, ?_, rfl⟩
  decide

/-- C4: a first `compile` call performs a full build per target requesting
metafile and incremental capability (the stylesheet build with in-memory
output), every later call invokes `rebuild` on the stored handles with no
fresh full build anywhere in its trace, a successful call replaces the
stored handles with the newly produced ones, and the orchestrator state
holds at most one live handle per build target at every point. -/
theorem compile_incremental_handle_protocol (config : RemixConfig)
    (st : CompilerState) (w : CompileWorld) :
    (st = CompilerState.initial →
      ∀ ext, getExternals w.nodeBuiltins config = Except.ok ext →
        ∃ rest, (compile config st w).trace =
          Event.fullBuild Target.app true true true ::
            Event.fullBuild Target.css true true false :: rest) ∧
    (∀ hA hC, st.appCompiler = some hA → st.cssCompiler = some hC →
      (∃ rest, (compile config st w).trace =
        Event.rebuildInvoked Target.app hA.handle ::
          Event.rebuildInvoked Target.css hC.handle :: rest) ∧
      (∀ t m i wr, Event.fullBuild t m i wr ∉ (compile config st w).trace)) ∧
    (∀ appC cssC aev cev,
      selectAppOp config st w = OpSelection.issued aev (Except.ok appC) →
      selectCssOp config st w = OpSelection.issued cev (Except.ok cssC) →
      (compile config st w).result = Except.ok ⟨some appC, some cssC⟩) ∧
    (∀ s : CompilerState, s.appCompiler.toList.length ≤ 1 ∧
      s.cssCompiler.toList.length ≤ 1) := by
  refine ⟨?_, ?_, ?_, ?_⟩
  · intro hst ext hx
    subst hst
    have hA : selectAppOp config CompilerState.initial w =
        OpSelection.issued (Event.fullBuild Target.app true true true)
          w.appResult := by
      simp [selectAppOp, CompilerState.initial, hx]
    have hC : selectCssOp config CompilerState.initial w =
        OpSelection.issued (Event.fullBuild Target.css true true false)
          w.cssResult := by
      simp [selectCssOp, CompilerState.initial, hx]
    obtain ⟨rest, htr, _⟩ := compile_trace_shape config CompilerState.initial w
      _ _ _ _ hA hC
    exact ⟨rest, htr⟩
  · intro hA2 hC2 ha hc
    have hA : selectAppOp config st w =
        OpSelection.issued (Event.rebuildInvoked Target.app hA2.handle)
          w.appResult := by
      simp [selectAppOp, ha]
    have hC : selectCssOp config st w =
        OpSelection.issued (Event.rebuildInvoked Target.css hC2.handle)
          w.cssResult := by
      simp [selectCssOp, hc]
    obtain ⟨rest, htr, hrest⟩ := compile_trace_shape config st w _ _ _ _ hA hC
    refine ⟨⟨rest, htr⟩, ?_⟩
    intro t m i wr hmem
    rw [htr] at hmem
    rcases List.mem_cons.mp hmem with he | he2
    · exact Event.noConfusion he
    · rcases List.mem_cons.mp he2 with he3 | he4
      · exact Event.noConfusion he3
      · rcases hrest _ he4 with ⟨f, hf⟩ | ⟨m2, hm⟩ | ⟨p, c, hp⟩
        · exact Event.noConfusion hf
        · exact Event.noConfusion hm
        · exact Event.noConfusion hp
  · intro appC cssC aev cev hA hC
    rw [compile_eq_ok config st w aev cev appC cssC hA hC]
  · intro s
    constructor
    · cases s.appCompiler <;> simp
    · cases s.cssCompiler <;> simp

/-- C4 witness: at the initial state the fixture compile issues two full
builds; at a state with stored handles it issues two rebuilds, its trace
holds no full build, and the stored handles are replaced by the newly
produced ones. -/
theorem compile_incremental_handle_protocol_witness :
    (∃ rest, (compile cfgW CompilerState.initial worldOkW).trace =
      Event.fullBuild Target.app true true true ::
        Event.fullBuild Target.css true true false :: rest) ∧
    (∃ rest, (compile cfgW stBothW worldOkW).trace =
      Event.rebuildInvoked Target.app 10 ::
        Event.rebuildInvoked Target.css 20 :: rest) ∧
    (∀ t m i wr, Event.fullBuild t m i wr ∉
      (compile cfgW stBothW worldOkW).trace) ∧
    (compile cfgW stBothW worldOkW).result =
      Except.ok ⟨some appBuildW, some cssBuildW⟩ := by
  have h1 := compile_incremental_handle_protocol cfgW CompilerState.initial
    worldOkW
  have h2 := compile_incremental_handle_protocol cfgW stBothW worldOkW
  have hreb := h2.2.1 ⟨10, "m0", []⟩ ⟨20, "m0", []⟩ rfl rfl
  exact ⟨h1.1 rfl ["fs", "path"] rfl, hreb.1, hreb.2,
    h2.2.2.1 appBuildW cssBuildW _ _ rfl rfl⟩

/-- C5: every successful compile persists the manifest under the assets
build directory as `manifest-<VERSION>.js` with the version token
upper-cased; the file content is the single global assignment
`window.__remixManifest=<JSON>;` of the serialized manifest; and the
manifest's url field is set to the public path prefix concatenated with
that filename before serialization. -/
theorem compile_manifest_persistence (config : RemixConfig)
    (st : CompilerState) (w : CompileWorld) (aev cev : Event)
    (appC cssC : BuildIncremental)
    (hA : selectAppOp config st w = OpSelection.issued aev (Except.ok appC))
    (hC : selectCssOp config st w = OpSelection.issued cev (Except.ok cssC)) :
    (let m := w.createAssetsManifest appC.metafile
      (processCssOutputFiles (cssBundlePathStart config)
        cssC.outputFiles).cssBundlePath
    let fn := manifestFileName m
    let m2 := { m with url := some (config.publicPath ++ fn) }
    fn = "manifest-" ++ toUpperCase m.version ++ ".js" ∧
    (writeAssetsManifest config m).1 = m2 ∧
    (writeAssetsManifest config m).1.url = some (config.publicPath ++ fn) ∧
    ∃ prior, (compile config st w).trace =
      prior ++ [Event.channelWrite m2,
        Event.manifestDiskWrite (pathJoin config.assetsBuildDirectory fn)
          ("window.__remixManifest=" ++ manifestToJson m2 ++ ";")]) := by
  refine ⟨rfl, rfl, rfl, ?_⟩
  rw [compile_eq_ok config st w aev cev appC cssC hA hC]
  exact ⟨[aev, cev] ++ (processCssOutputFiles (cssBundlePathStart config)
    cssC.outputFiles).writes.map Event.cssFileWrite, rfl⟩

/-- C5 witness: the fixture compile persists
`manifest-ABC123DEF.js` (upper-cased version `abc123def`) under the assets
directory, containing the global assignment of the serialized manifest
whose url is `/build/manifest-ABC123DEF.js`. -/
theorem compile_manifest_persistence_witness :
    ∃ prior, (compile cfgW stBothW worldOkW).trace =
      prior ++ [Event.channelWrite ⟨"abc123def",
          some "/build/manifest-ABC123DEF.js",
          some "public/build/css-bundle-HASH.css",
          "\"metafile\":\"meta-app\""⟩,
        Event.manifestDiskWrite "public/build/manifest-ABC123DEF.js"
          ("window.__remixManifest=" ++ manifestToJson ⟨"abc123def",
            some "/build/manifest-ABC123DEF.js",
            some "public/build/css-bundle-HASH.css",
            "\"metafile\":\"meta-app\""⟩ ++ ";")] := by
  have h := compile_manifest_persistence cfgW stBothW worldOkW _ _
    appBuildW cssBuildW rfl rfl
  obtain ⟨prior, hp⟩ := h.2.2.2
  exact ⟨prior, hp⟩

/-- C9: every successful compile writes the handoff channel exactly once,
and the published manifest value's url field equals the public path prefix
concatenated with the manifest filename — the same url serialized into the
manifest file persisted to disk. -/
theorem compile_channel_single_write (config : RemixConfig)
    (st : CompilerState) (w : CompileWorld) (aev cev : Event)
    (appC cssC : BuildIncremental)
    (hA : selectAppOp config st w = OpSelection.issued aev (Except.ok appC))
    (hC : selectCssOp config st w = OpSelection.issued cev (Except.ok cssC)) :
    (let m := w.createAssetsManifest appC.metafile
      (processCssOutputFiles (cssBundlePathStart config)
        cssC.outputFiles).cssBundlePath
    let m2 := (writeAssetsManifest config m).1
    (compile config st w).trace.filter isChannelWriteEv =
      [Event.channelWrite m2] ∧
    m2.url = some (config.publicPath ++ manifestFileName m) ∧
    Event.manifestDiskWrite
        (pathJoin config.assetsBuildDirectory (manifestFileName m))
        ("window.__remixManifest=" ++ manifestToJson m2 ++ ";") ∈
      (compile config st w).trace) := by
  have hfa := issued_ev_forms aev Target.app
    (selectAppOp_issued_shape config st w aev _ hA).1
  have hfc := issued_ev_forms cev Target.css
    (selectCssOp_issued_shape config st w cev _ hC).1
  refine ⟨?_, rfl, ?_⟩
  · rw [compile_eq_ok config st w aev cev appC cssC hA hC]
    simp [List.filter_append, filter_channel_map_css, hfa.2.2.2, hfc.2.2.2,
      isChannelWriteEv_channel, isChannelWriteEv_mdw]
  · rw [compile_eq_ok config st w aev cev appC cssC hA hC]
    exact List.mem_cons_of_mem _ (List.mem_cons_of_mem _
      (List.mem_append_right _
        (List.mem_cons_of_mem _ (List.mem_cons_self _ _))))

/-- C9 witness: the fixture compile's trace holds exactly one channel
write, of the manifest whose url is `/build/manifest-ABC123DEF.js`. -/
theorem compile_channel_single_write_witness :
    (compile cfgW stBothW worldOkW).trace.filter isChannelWriteEv =
      [Event.channelWrite ⟨"abc123def", some "/build/manifest-ABC123DEF.js",
        some "public/build/css-bundle-HASH.css",
        "\"metafile\":\"meta-app\""⟩] ∧
    (writeAssetsManifest cfgW (mkManifestW "meta-app"
        (some "public/build/css-bundle-HASH.css"))).1.url =
      some "/build/manifest-ABC123DEF.js" := by
  have h := compile_channel_single_write cfgW stBothW worldOkW _ _
    appBuildW cssBuildW rfl rfl
  exact ⟨h.1, h.2.1⟩

/-- C10: an emitted file under the css-bundle output path ending in
neither `.css` nor `.css.map` is ignored by the post-processing step
exactly like files outside the path: it is never written, and removing it
from the output set changes nothing. -/
theorem processCss_discards_nonmatching (pre : String)
    (outs : List OutputFile) (f : OutputFile)
    (hpre : strStartsWith f.path pre = true)
    (hcss : strEndsWith f.path ".css" = false)
    (hmap : strEndsWith f.path ".css.map" = false) :
    (∀ acc, processCssOutputFile pre acc f = acc) ∧
    (f ∈ outs → f ∉ (processCssOutputFiles pre outs).writes) ∧
    (∀ g, strStartsWith g.path pre = false →
      ∀ acc, processCssOutputFile pre acc g = acc) ∧
    (∀ l1 l2, processCssOutputFiles pre (l1 ++ f :: l2) =
      processCssOutputFiles pre (l1 ++ l2)) := by
  have hstep : ∀ acc, processCssOutputFile pre acc f = acc := by
    intro acc
    simp [processCssOutputFile, hpre, hcss, hmap]
  refine ⟨hstep, ?_, ?_, ?_⟩
  · intro _ hin
    rw [processCss_writes_eq] at hin
    have hp := (List.mem_filter.mp hin).2
    simp [isCssWriteFile, hcss, hmap] at hp
  · intro g hg acc
    simp [processCssOutputFile, hg]
  · intro l1 l2
    simp [processCssOutputFiles, List.foldl_append, List.foldl_cons, hstep]

/-- C2: the stylesheet post-processing of `compile` persists verbatim
exactly the `.css` and `.css.map` files under the css-bundle output
prefix (files under any other prefix are not written), records the `.css`
file's path as the resolved css bundle path (uniquely so when at most one
such file exists), leaves the path undefined when no stylesheet output
exists, and `compile` passes exactly this resolved path to the external
manifest builder. -/
theorem compile_css_output_postprocessing (pre : String)
    (outs : List OutputFile) :
    ((processCssOutputFiles pre outs).writes =
      outs.filter (isCssWriteFile pre)) ∧
    (∀ f ∈ outs, strStartsWith f.path pre = true →
      strEndsWith f.path ".css" = true →
        f ∈ (processCssOutputFiles pre outs).writes) ∧
    (∀ f ∈ outs, strStartsWith f.path pre = true →
      strEndsWith f.path ".css.map" = true →
        f ∈ (processCssOutputFiles pre outs).writes) ∧
    (∀ f ∈ (processCssOutputFiles pre outs).writes,
      strStartsWith f.path pre = true) ∧
    ((∀ f ∈ outs, isCssBundleFile pre f = false) →
      (processCssOutputFiles pre outs).cssBundlePath = none) ∧
    ((outs.filter (isCssBundleFile pre)).length ≤ 1 →
      ∀ f ∈ outs, isCssBundleFile pre f = true →
        (processCssOutputFiles pre outs).cssBundlePath = some f.path) ∧
    (∀ (config : RemixConfig) (st : CompilerState) (w : CompileWorld)
      (aev cev : Event) (appC cssC : BuildIncremental),
      selectAppOp config st w = OpSelection.issued aev (Except.ok appC) →
      selectCssOp config st w = OpSelection.issued cev (Except.ok cssC) →
      cssC.outputFiles = outs → cssBundlePathStart config = pre →
      Event.channelWrite (writeAssetsManifest config
        (w.createAssetsManifest appC.metafile
          (processCssOutputFiles pre outs).cssBundlePath)).1 ∈
        (compile config st w).trace) := by
  refine ⟨processCss_writes_eq pre outs, ?_, ?_, ?_, ?_, ?_, ?_⟩
  · intro f hf h1 h2
    rw [processCss_writes_eq]
    exact List.mem_filter.mpr ⟨hf, by simp [isCssWriteFile, h1, h2]⟩
  · intro f hf h1 h2
    rw [processCss_writes_eq]
    exact List.mem_filter.mpr ⟨hf, by simp [isCssWriteFile, h1, h2]⟩
  · intro f hf
    rw [processCss_writes_eq] at hf
    have hp := (List.mem_filter.mp hf).2
    rw [isCssWriteFile, Bool.and_eq_true] at hp
    exact hp.1
  · intro hnone
    rw [processCss_bundlePath_eq, (lastCss_none_iff pre outs).mpr hnone]
  · intro hlen f hf hcss
    rw [processCss_bundlePath_eq, lastCss_of_unique pre outs f hlen hf hcss]
  · intro config st w aev cev appC cssC hA hC houts hpre
    subst houts
    subst hpre
    rw [compile_eq_ok config st w aev cev appC cssC hA hC]
    simp

/-- C2 witness: with the fixture output-file set, the bundle file's path
is recorded, the no-stylesheet-output set yields an undefined path, and a
successful compile publishes the manifest built from the recorded path. -/
theorem compile_css_output_postprocessing_witness :
    (processCssOutputFiles (cssBundlePathStart cfgW)
        cssBuildW.outputFiles).cssBundlePath = some cssOutFileW.path ∧
    (processCssOutputFiles (cssBundlePathStart cfgW)
        cssBuildEmptyW.outputFiles).cssBundlePath = none ∧
    Event.channelWrite (writeAssetsManifest cfgW
        (worldOkW.createAssetsManifest appBuildW.metafile
          (processCssOutputFiles (cssBundlePathStart cfgW)
            cssBuildW.outputFiles).cssBundlePath)).1 ∈
      (compile cfgW stBothW worldOkW).trace := by
  have h := compile_css_output_postprocessing (cssBundlePathStart cfgW)
    cssBuildW.outputFiles
  have h2 := compile_css_output_postprocessing (cssBundlePathStart cfgW)
    cssBuildEmptyW.outputFiles
  refine ⟨h.2.2.2.2.2.1 (by decide) cssOutFileW (by decide) (by decide),
    h2.2.2.2.2.1 (by decide), ?_⟩
  exact h.2.2.2.2.2.2 cfgW stBothW worldOkW _ _ appBuildW cssBuildW rfl rfl rfl rfl

/-- C3: if either target operation fails, `compile` propagates that error;
a failed compile performs no manifest channel write and no manifest disk
write — the persisted manifest is untouched — and its only disk writes are
engine-emitted stylesheet output files persisted verbatim; the manifest
disk write happens only as the final event of a successful compile,
strictly after both sub-build events and the channel write. -/
theorem compile_failure_semantics (config : RemixConfig) (st : CompilerState)
    (w : CompileWorld) (aev cev : Event)
    (ares cres : Except String BuildIncremental)
    (hA : selectAppOp config st w = OpSelection.issued aev ares)
    (hC : selectCssOp config st w = OpSelection.issued cev cres) :
    (∀ e, ares = Except.error e →
      (compile config st w).result = Except.error e) ∧
    (∀ e appC, ares = Except.ok appC → cres = Except.error e →
      (compile config st w).result = Except.error e) ∧
    ((∃ e, (compile config st w).result = Except.error e) →
      (∀ m, Event.channelWrite m ∉ (compile config st w).trace) ∧
      (∀ p c, Event.manifestDiskWrite p c ∉ (compile config st w).trace) ∧
      (∀ f, Event.cssFileWrite f ∈ (compile config st w).trace →
        ∃ cssC, cres = Except.ok cssC ∧ f ∈ cssC.outputFiles)) ∧
    (∀ stOk, (compile config st w).result = Except.ok stOk →
      ∃ appC cssC, ares = Except.ok appC ∧ cres = Except.ok cssC ∧
        (compile config st w).trace =
          [aev, cev] ++
            (processCssOutputFiles (cssBundlePathStart config)
              cssC.outputFiles).writes.map Event.cssFileWrite ++
            [Event.channelWrite (writeAssetsManifest config
              (w.createAssetsManifest appC.metafile
                (processCssOutputFiles (cssBundlePathStart config)
                  cssC.outputFiles).cssBundlePath)).1,
            Event.manifestDiskWrite (writeAssetsManifest config
              (w.createAssetsManifest appC.metafile
                (processCssOutputFiles (cssBundlePathStart config)
                  cssC.outputFiles).cssBundlePath)).2.1
              (writeAssetsManifest config
                (w.createAssetsManifest appC.metafile
                  (processCssOutputFiles (cssBundlePathStart config)
                    cssC.outputFiles).cssBundlePath)).2.2]) := by
  have hsa := (selectAppOp_issued_shape config st w aev ares hA).1
  have hsc := (selectCssOp_issued_shape config st w cev cres hC).1
  have hfa := issued_ev_forms aev Target.app hsa
  have hfc := issued_ev_forms cev Target.css hsc
  refine ⟨?_, ?_, ?_, ?_⟩
  · intro e he
    subst he
    rw [compile_eq_app_error config st w aev cev e cres hA hC]
  · intro e appC ha hc
    subst ha
    subst hc
    rw [compile_eq_css_error config st w aev cev appC e hA hC]
  · intro herr
    have htr := compile_error_trace config st w aev cev ares cres hA hC herr
    rw [htr]
    refine ⟨?_, ?_, ?_⟩
    · intro m hm
      rcases List.mem_append.mp hm with h1 | h2
      · rcases List.mem_cons.mp h1 with he | he2
        · exact absurd he.symm (hfa.1 m)
        · rcases List.mem_cons.mp he2 with he3 | he4
          · exact absurd he3.symm (hfc.1 m)
          · cases he4
      · rw [List.mem_map] at h2
        obtain ⟨g, _, hg⟩ := h2
        exact Event.noConfusion hg
    · intro p c hm
      rcases List.mem_append.mp hm with h1 | h2
      · rcases List.mem_cons.mp h1 with he | he2
        · exact absurd he.symm (hfa.2.1 p c)
        · rcases List.mem_cons.mp he2 with he3 | he4
          · exact absurd he3.symm (hfc.2.1 p c)
          · cases he4
      · rw [List.mem_map] at h2
        obtain ⟨g, _, hg⟩ := h2
        exact Event.noConfusion hg
    · intro f hm
      rcases List.mem_append.mp hm with h1 | h2
      · rcases List.mem_cons.mp h1 with he | he2
        · exact absurd he.symm (hfa.2.2.1 f)
        · rcases List.mem_cons.mp he2 with he3 | he4
          · exact absurd he3.symm (hfc.2.2.1 f)
          · cases he4
      · rw [List.mem_map] at h2
        obtain ⟨g, hgmem, hg⟩ := h2
        cases cres with
        | error e => cases hgmem
        | ok cssC =>
          refine ⟨cssC, rfl, ?_⟩
          have hwr : g ∈ (processCssOutputFiles (cssBundlePathStart config)
              cssC.outputFiles).writes := hgmem
          rw [processCss_writes_eq] at hwr
          have := (List.mem_filter.mp hwr).1
          injection hg with hg2
          rw [← hg2]
          exact this
  · intro stOk hok
    cases ares with
    | error e =>
      rw [compile_eq_app_error config st w aev cev e cres hA hC] at hok
      cases hok
    | ok appC =>
      cases cres with
      | error e =>
        rw [compile_eq_css_error config st w aev cev appC e hA hC] at hok
        cases hok
      | ok cssC =>
        refine ⟨appC, cssC, rfl, rfl, ?_⟩
        rw [compile_eq_ok config st w aev cev appC cssC hA hC]

/-- C3 witness: a failed app rebuild at the fixture state propagates its
error and writes neither the channel nor the manifest file. -/
theorem compile_failure_semantics_witness :
    (compile cfgW stBothW worldAppFailW).result =
      Except.error "app syntax error" ∧
    Event.channelWrite ⟨"v", none, none, "r"⟩ ∉
      (compile cfgW stBothW worldAppFailW).trace ∧
    Event.manifestDiskWrite "p" "c" ∉
      (compile cfgW stBothW worldAppFailW).trace := by
  have h := compile_failure_semantics cfgW stBothW worldAppFailW
    (Event.rebuildInvoked Target.app 10) (Event.rebuildInvoked Target.css 20)
    (Except.error "app syntax error") (Except.ok cssBuildW) rfl rfl
  have hres := h.1 "app syntax error" rfl
  exact ⟨hres, (h.2.2.1 ⟨_, hres⟩).1 _, (h.2.2.1 ⟨_, hres⟩).2.1 "p" "c"⟩

/-- C10 witness: the `.txt` file under the css-bundle output path is not
written and its removal leaves the post-processing state unchanged. -/
theorem processCss_discards_nonmatching_witness :
    cssJunkFileW ∉
      (processCssOutputFiles (cssBundlePathStart cfgW)
        cssBuildW.outputFiles).writes ∧
    processCssOutputFiles (cssBundlePathStart cfgW)
        ([cssOutFileW] ++ cssJunkFileW :: [cssMapFileW]) =
      processCssOutputFiles (cssBundlePathStart cfgW)
        ([cssOutFileW] ++ [cssMapFileW]) := by
  have h := processCss_discards_nonmatching (cssBundlePathStart cfgW)
    cssBuildW.outputFiles cssJunkFileW (by decide) (by decide) (by decide)
  exact ⟨h.2.1 (by decide), h.2.2.2 [cssOutFileW] [cssMapFileW]⟩

end Remix
